import Mathlib

/-!
Shallow embedding of the VElectric Load Manager device-protocol client
(`custom_components/velectric_load_manager`): the websocket frame codec,
the client state updated by inbound binary frames, and the energy
integrator of the derived-metrics layer.  Byte strings are modelled as
`List ℕ` (one entry per byte), floating-point arithmetic as exact
rational / real arithmetic, and the fixed 1-decimal rounding of
`round(math.sqrt(raw), 1)` as a computable nearest-integer square root
in tenths.
-/

namespace VElectric

/-- Connection lifecycle states of the websocket client. -/
inductive ConnectionStatus where
  | disconnected
  | connecting
  | connected
deriving DecidableEq, Repr

/-- Per-load status codes reported by the device. -/
inductive LoadStatus where
  | off
  | on
  | waitOff
  | waitOn
deriving DecidableEq, Repr

/-- Configuration for a single load channel (`LoadConfig` dataclass). -/
structure LoadConfig where
  load_breaker : ℕ
  turn_on_delay : ℕ
  turn_off_delay : ℕ
deriving DecidableEq, Repr

/-- Current state of a load channel (`LoadState` dataclass). -/
structure LoadState where
  status : LoadStatus
  remaining_time : Option ℤ
deriving DecidableEq, Repr

/-- Device configuration settings (`Settings` dataclass). -/
structure Settings where
  main_supply_breaker : ℕ
  loads : Fin 3 → LoadConfig
  active_ch : ℕ
  ct_index : ℕ
  ct_rating : ℕ
  scale : ℕ

/-- CT1/CT2 readings in amps (`CurrentReadings` dataclass). -/
structure CurrentReadings where
  ct1 : ℚ
  ct2 : ℚ
deriving DecidableEq, Repr

/-- The mutable state of `VElectricWebSocketClient` that the protocol
operations read and write. -/
structure ClientState where
  connected : Bool
  connection_status : ConnectionStatus
  ping_task : Bool
  message_task : Bool
  websocket : Bool
  latest_readings : CurrentReadings
  current_readings : CurrentReadings
  load_status : Fin 3 → LoadState
  settings : Settings

/-- Little-endian unsigned 16-bit field at byte offset `k`
(`struct.unpack("<H", data[k:k+2])`). -/
def le16 (data : List ℕ) (k : ℕ) : ℕ :=
  data.getD k 0 + 256 * data.getD (k + 1) 0

/-- Nearest integer to `Real.sqrt m` (ties cannot occur for natural `m`). -/
def sqrtNearest (m : ℕ) : ℕ :=
  if m ≤ Nat.sqrt m * Nat.sqrt m + Nat.sqrt m then Nat.sqrt m else Nat.sqrt m + 1

/-- `round(math.sqrt(raw), 1)` of the source, i.e. the raw value's square
root rounded to one decimal, computed exactly in ℚ. -/
def decodeCurrent (raw : ℕ) : ℚ :=
  (sqrtNearest (100 * raw) : ℚ) / 10

/-- `decode_currents`: decode a legacy 14-byte packet into ct1/ct2 readings.
The `Bool` component records whether the invalid-packet-size warning was
logged; a wrong-sized packet yields the zero reading plus the warning. -/
def decode_currents (packet : List ℕ) : CurrentReadings × Bool :=
  if packet.length ≠ 14 then ({ ct1 := 0, ct2 := 0 }, true)
  else ({ ct1 := decodeCurrent (le16 packet 0), ct2 := decodeCurrent (le16 packet 2) }, false)

/-- The ct1/ct2 pair decoded from bytes 0-3 of an extended readings frame. -/
def decodedReadings (data : List ℕ) : CurrentReadings :=
  { ct1 := decodeCurrent (le16 data 0), ct2 := decodeCurrent (le16 data 2) }

/-- Per-channel load state decoded from status byte `10 + i` and counter
bytes `4+2i..5+2i`, using the delay values of the stored settings `s`. -/
def loadStateOf (data : List ℕ) (s : Settings) (i : Fin 3) : LoadState :=
  if data.getD (10 + i.val) 0 = 0 then { status := LoadStatus.off, remaining_time := none }
  else if data.getD (10 + i.val) 0 = 1 then { status := LoadStatus.on, remaining_time := none }
  else if data.getD (10 + i.val) 0 = 2 then
    { status := LoadStatus.waitOff,
      remaining_time := some (max 0 (((s.loads i).turn_off_delay : ℤ) - le16 data (4 + 2 * i.val))) }
  else if data.getD (10 + i.val) 0 = 3 then
    { status := LoadStatus.waitOn,
      remaining_time :=
        some (max 0 (((s.loads i).turn_on_delay : ℤ) * 60 - le16 data (4 + 2 * i.val))) }
  else { status := LoadStatus.off, remaining_time := none }

/-- The `len(data) ≥ 13` branch of `_process_readings_message`: replace the
current readings (and the legacy readings dict) and rebuild the three load
states from counters, status bytes and the stored delay settings. -/
def extended_readings_update (data : List ℕ) (st : ClientState) : ClientState :=
  { st with
    current_readings := decodedReadings data
    latest_readings := decodedReadings data
    load_status := fun i => loadStateOf data st.settings i }

/-- The legacy branch of `_process_readings_message`: run `decode_currents`
and replace only the readings, leaving load status and settings untouched. -/
def legacy_readings_update (data : List ℕ) (st : ClientState) : ClientState × Bool :=
  ({ st with
      latest_readings := (decode_currents data).1
      current_readings := (decode_currents data).1 },
    (decode_currents data).2)

/-- `_process_readings_message`: frames shorter than 13 bytes take the
legacy 14-byte check (otherwise they are dropped); all other frames take
the extended readings+status path. -/
def process_readings_message (data : List ℕ) (st : ClientState) : ClientState × Bool :=
  if data.length < 13 then
    if data.length = 14 then legacy_readings_update data st
    else (st, false)
  else (extended_readings_update data st, false)

/-- `_process_settings_message`: decode a 12-byte settings frame and replace
the stored settings wholesale. -/
def process_settings_message (data : List ℕ) (st : ClientState) : ClientState :=
  { st with
    settings :=
      { main_supply_breaker := data.getD 0 0 * 1
        loads := fun i =>
          { load_breaker := data.getD (i.val * 3 + 1) 0 * 1
            turn_on_delay := data.getD (i.val * 3 + 2) 0
            turn_off_delay := data.getD (i.val * 3 + 3) 0 }
        active_ch := data.getD 10 0
        ct_index := data.getD 11 0
        ct_rating := 100 * (data.getD 11 0 + 1)
        scale := 1 } }

/-- `_process_binary_message`: dispatch an inbound binary frame by length —
exactly 12 bytes to the settings decoder, everything else to the readings
decoder.  The `Bool` component records whether a warning was logged. -/
def process_binary_message (data : List ℕ) (st : ClientState) : ClientState × Bool :=
  if data.length = 12 then (process_settings_message data st, false)
  else process_readings_message data st

/-- Error signalled by `get_readings` on a client that is not connected. -/
inductive ClientError where
  | notConnected
deriving DecidableEq, Repr

/-- `get_readings`: raise `ConnectionError` when not connected, otherwise
return a copy of the latest readings. -/
def get_readings (st : ClientState) : Except ClientError CurrentReadings :=
  if st.connected = false then Except.error ClientError.notConnected
  else Except.ok st.latest_readings

/-- `disconnect`: a no-op when not connected; otherwise cancel both loops,
close and clear the websocket, and mark the client disconnected. -/
def disconnect (st : ClientState) : ClientState :=
  if st.connected = false then st
  else
    { st with
      connected := false
      ping_task := false
      message_task := false
      websocket := false
      connection_status := ConnectionStatus.disconnected }

/-- The default load configuration installed by `__init__`. -/
def default_loads : Fin 3 → LoadConfig := fun i =>
  if i.val = 0 then { load_breaker := 60, turn_on_delay := 6, turn_off_delay := 10 }
  else if i.val = 1 then { load_breaker := 60, turn_on_delay := 8, turn_off_delay := 8 }
  else { load_breaker := 60, turn_on_delay := 10, turn_off_delay := 6 }

/-- The client state produced by `__init__`: disconnected, zero readings,
all loads off, default settings. -/
def initialState : ClientState :=
  { connected := false
    connection_status := ConnectionStatus.disconnected
    ping_task := false
    message_task := false
    websocket := false
    latest_readings := { ct1 := 0, ct2 := 0 }
    current_readings := { ct1 := 0, ct2 := 0 }
    load_status := fun _ => { status := LoadStatus.off, remaining_time := none }
    settings :=
      { main_supply_breaker := 100
        loads := default_loads
        active_ch := 2
        ct_index := 0
        ct_rating := 100
        scale := 1 } }

/-- State of `VElectricEnergySensor`'s trapezoidal integrator. -/
structure EnergyState where
  last_update_time : Option ℚ
  last_power_value : Option ℚ
  energy_total : ℚ
deriving DecidableEq, Repr

/-- One evaluation of `VElectricEnergySensor.native_value` at time `now`
with the sampled power `current_power` (`none` when no power value is
available, in which case nothing changes). -/
def native_value (st : EnergyState) (now : ℚ) (current_power : Option ℚ) : EnergyState :=
  match current_power with
  | none => st
  | some p =>
    let total :=
      match st.last_update_time, st.last_power_value with
      | some t0, some p0 =>
        if t0 < now then st.energy_total + ((p0 + p) / 2 * ((now - t0) / 3600)) / 1000
        else st.energy_total
      | _, _ => st.energy_total
    { last_update_time := some now, last_power_value := some p, energy_total := total }

/-- `_get_power_value`: power is current times the configured voltage. -/
def get_power_value (current : ℚ) (voltage : ℚ) : ℚ := current * voltage

/-- Energy integrator state before the first sample, seeded with total 0. -/
def initialEnergyState : EnergyState :=
  { last_update_time := none, last_power_value := none, energy_total := 0 }

/-- Run the energy integrator over a list of (timestamp, power) samples. -/
def energy_run (st : EnergyState) (samples : List (ℚ × Option ℚ)) : EnergyState :=
  samples.foldl (fun acc s => native_value acc s.1 s.2) st

/-! ### Helper lemmas -/

/-- `sqrtNearest` agrees with rounding the real square root.  (`Real.sqrt m`
is never exactly halfway between two integers for natural `m`, so the
rounding mode is immaterial.) -/
lemma round_real_sqrt (m : ℕ) : round (Real.sqrt m) = (sqrtNearest m : ℤ) := by
  have h0 : (Nat.sqrt m : ℝ) ≤ Real.sqrt m := Real.nat_sqrt_le_real_sqrt
  have h1 : Real.sqrt m < (Nat.sqrt m : ℝ) + 1 := Real.real_sqrt_lt_nat_sqrt_succ
  unfold sqrtNearest
  by_cases hc : m ≤ Nat.sqrt m * Nat.sqrt m + Nat.sqrt m
  · rw [if_pos hc, round_eq, Int.floor_eq_iff]
    have hcR : (m : ℝ) ≤ (Nat.sqrt m : ℝ) * (Nat.sqrt m : ℝ) + (Nat.sqrt m : ℝ) := by
      exact_mod_cast hc
    have h2 : Real.sqrt m < (Nat.sqrt m : ℝ) + 1 / 2 := by
      rw [Real.sqrt_lt (by positivity) (by positivity)]
      nlinarith
    constructor
    · push_cast
      linarith
    · push_cast
      linarith
  · rw [if_neg hc, round_eq, Int.floor_eq_iff]
    have hcN : Nat.sqrt m * Nat.sqrt m + Nat.sqrt m + 1 ≤ m := by omega
    have hcR : (Nat.sqrt m : ℝ) * (Nat.sqrt m : ℝ) + (Nat.sqrt m : ℝ) + 1 ≤ (m : ℝ) := by
      exact_mod_cast hcN
    have h2 : (Nat.sqrt m : ℝ) + 1 / 2 ≤ Real.sqrt m := by
      rw [Real.le_sqrt (by positivity) (by positivity)]
      nlinarith
    constructor
    · push_cast
      linarith
    · push_cast
      linarith

/-- `decodeCurrent` is exactly the 1-decimal rounding of the real square
root: `round(sqrt raw, 1) = round(10 · sqrt raw) / 10`. -/
lemma decodeCurrent_eq_round (raw : ℕ) :
    (decodeCurrent raw : ℝ) = ((round ((10 : ℝ) * Real.sqrt raw) : ℤ) : ℝ) / 10 := by
  have h100 : Real.sqrt ((100 : ℝ) * raw) = 10 * Real.sqrt raw := by
    rw [show ((100 : ℝ) * raw) = 10 ^ 2 * raw by norm_num,
      Real.sqrt_mul (by positivity), Real.sqrt_sq (by norm_num : (0 : ℝ) ≤ 10)]
  have hcast : ((100 * raw : ℕ) : ℝ) = (100 : ℝ) * raw := by push_cast; ring
  have h := round_real_sqrt (100 * raw)
  rw [hcast, h100] at h
  unfold decodeCurrent
  rw [h]
  push_cast
  ring

/-- `sqrtNearest` of a perfect square. -/
lemma sqrtNearest_mul_self (k : ℕ) : sqrtNearest (k * k) = k := by
  unfold sqrtNearest
  rw [Nat.sqrt_eq]
  simp

lemma decodeCurrent_900 : decodeCurrent 900 = 30 := by
  have h : sqrtNearest 90000 = 300 := by
    have h2 := sqrtNearest_mul_self 300
    norm_num at h2
    exact h2
  unfold decodeCurrent
  norm_num [h]

lemma decodeCurrent_625 : decodeCurrent 625 = 25 := by
  have h : sqrtNearest 62500 = 250 := by
    have h2 := sqrtNearest_mul_self 250
    norm_num at h2
    exact h2
  unfold decodeCurrent
  norm_num [h]

lemma decodeCurrent_0 : decodeCurrent 0 = 0 := by
  unfold decodeCurrent sqrtNearest
  norm_num

/-- A concrete 13-byte all-zero readings frame. -/
def frame13 : List ℕ := [0, 0, 0, 0, 0, 0, 0, 0, 0, 0, 0, 0, 0]

/-- A concrete 13-byte readings frame: zero currents, load-1 counter 5,
status bytes 2 (wait-off), 3 (wait-on), 7 (unknown). -/
def frame13s : List ℕ := [0, 0, 0, 0, 5, 0, 0, 0, 0, 0, 2, 3, 7]

/-- A concrete 14-byte frame whose status bytes (positions 10-12) are 1. -/
def frame14 : List ℕ := [0, 0, 0, 0, 0, 0, 0, 0, 0, 0, 1, 1, 1, 0]

/-- A concrete 12-byte settings frame. -/
def frame12 : List ℕ := [50, 30, 5, 9, 40, 6, 8, 20, 7, 11, 2, 1]

/-! ### Claim theorems -/

/-- Claim C7: `decode_currents` is lossy-tolerant — on every input whose
length is not exactly 14 bytes it returns the zero reading
`{ct1 := 0, ct2 := 0}` together with the logged warning, instead of
propagating an error (the embedding is a total function, as the source
catches the only possible unpack failure). -/
theorem decode_currents_malformed (packet : List ℕ) (h : packet.length ≠ 14) :
    decode_currents packet = ({ ct1 := 0, ct2 := 0 }, true) := by
  simp [decode_currents, h]

/-- Witness for C7 at a concrete 5-byte packet. -/
theorem decode_currents_malformed_witness :
    decode_currents [0, 0, 0, 0, 0] = ({ ct1 := 0, ct2 := 0 }, true) :=
  decode_currents_malformed [0, 0, 0, 0, 0] (by decide)

/-- Claim C8: `get_readings` on a client that is not connected raises the
distinguishable not-connected error rather than returning stale or default
readings; on a connected client it returns (a copy of) the most recent
readings. -/
theorem get_readings_connection (st : ClientState) :
    (st.connected = false → get_readings st = Except.error ClientError.notConnected)
      ∧ (st.connected = true → get_readings st = Except.ok st.latest_readings) := by
  constructor
  · intro h
    simp [get_readings, h]
  · intro h
    simp [get_readings, h]

/-- Witness for C8: the never-connected initial client errors, and a
connected client returns its latest readings. -/
theorem get_readings_connection_witness :
    get_readings initialState = Except.error ClientError.notConnected
      ∧ get_readings { initialState with connected := true }
          = Except.ok initialState.latest_readings :=
  ⟨(get_readings_connection initialState).1 rfl,
    (get_readings_connection { initialState with connected := true }).2 rfl⟩

/-- Claim C9: `disconnect` is idempotent — on an already-disconnected client
(in particular the initial, never-connected one) it is a no-op changing no
client state, and a second `disconnect` right after a first one always does
nothing. -/
theorem disconnect_idempotent (st : ClientState) :
    (st.connected = false → disconnect st = st)
      ∧ disconnect (disconnect st) = disconnect st := by
  constructor
  · intro h
    simp [disconnect, h]
  · by_cases h : st.connected = false
    · simp [disconnect, h]
    · simp [disconnect, h]

/-- Witness for C9: `disconnect` on the never-connected initial state is a
no-op. -/
theorem disconnect_idempotent_witness : disconnect initialState = initialState :=
  (disconnect_idempotent initialState).1 rfl

/-- Claim C10: every inbound binary frame shorter than 12 bytes is silently
dropped — the client state is completely unchanged and no warning is
logged (in contrast to the zero-plus-warning behaviour of
`decode_currents`). -/
theorem short_frame_dropped (data : List ℕ) (st : ClientState) (h : data.length < 12) :
    process_binary_message data st = (st, false) := by
  have h12 : data.length ≠ 12 := by omega
  have h13 : data.length < 13 := by omega
  have h14 : data.length ≠ 14 := by omega
  simp [process_binary_message, process_readings_message, h12, h13, h14]

/-- Witness for C10 at a concrete 5-byte frame. -/
theorem short_frame_dropped_witness :
    process_binary_message [0, 0, 0, 0, 0] initialState = (initialState, false) :=
  short_frame_dropped [0, 0, 0, 0, 0] initialState (by decide)

/-- Counterexample for C4: the claim says a 14-byte frame is decoded by the
legacy current-only branch, but processing `frame14` (status bytes 1)
updates the load status — something the legacy branch never does — so the
dispatch actually sent it to the extended readings+status path. -/
theorem frame14_not_legacy :
    (process_binary_message frame14 initialState).1.load_status 0
      ≠ (legacy_readings_update frame14 initialState).1.load_status 0 := by
  decide

/-- Claim C4 (amended): every 14-byte binary frame is dispatched to the
extended ≥13-byte readings+status path; the legacy 14-byte branch inside
`_process_readings_message` is dead, since it requires a length that is
simultaneously less than 13 and equal to 14. -/
theorem frame14_extended_dispatch (data : List ℕ) (st : ClientState) (h : data.length = 14) :
    process_binary_message data st = (extended_readings_update data st, false) := by
  have h12 : data.length ≠ 12 := by omega
  have h13 : ¬ data.length < 13 := by omega
  simp [process_binary_message, process_readings_message, h12, h13]

/-- Witness for the amended C4 at the concrete 14-byte frame. -/
theorem frame14_extended_dispatch_witness :
    process_binary_message frame14 initialState
      = (extended_readings_update frame14 initialState, false) :=
  frame14_extended_dispatch frame14 initialState rfl

/-- Claim C1: for every readings frame of at least 13 bytes, each decoded
current equals `round(sqrt raw, 1) = round(10·sqrt raw)/10` where `raw` is
the little-endian uint16 at bytes 0-1 (ct1) resp. 2-3 (ct2); in particular
raw 900 decodes to 30.0, raw 625 to 25.0 and raw 0 to 0.0. -/
theorem readings_current_round_sqrt (data : List ℕ) (st : ClientState)
    (h : 13 ≤ data.length) :
    ((((process_binary_message data st).1.current_readings.ct1 : ℝ)
          = ((round ((10 : ℝ) * Real.sqrt (le16 data 0)) : ℤ) : ℝ) / 10)
        ∧ (((process_binary_message data st).1.current_readings.ct2 : ℝ)
          = ((round ((10 : ℝ) * Real.sqrt (le16 data 2)) : ℤ) : ℝ) / 10))
      ∧ decodeCurrent 900 = 30 ∧ decodeCurrent 625 = 25 ∧ decodeCurrent 0 = 0 := by
  have h12 : data.length ≠ 12 := by omega
  have h13 : ¬ data.length < 13 := by omega
  have hct : (process_binary_message data st).1.current_readings = decodedReadings data := by
    simp [process_binary_message, process_readings_message, h12, h13,
      extended_readings_update]
  refine ⟨⟨?_, ?_⟩, decodeCurrent_900, decodeCurrent_625, decodeCurrent_0⟩
  · rw [hct]
    exact decodeCurrent_eq_round (le16 data 0)
  · rw [hct]
    exact decodeCurrent_eq_round (le16 data 2)

/-- Witness for C1 at the concrete 13-byte frame `frame13`. -/
theorem readings_current_round_sqrt_witness :
    ((((process_binary_message frame13 initialState).1.current_readings.ct1 : ℝ)
          = ((round ((10 : ℝ) * Real.sqrt (le16 frame13 0)) : ℤ) : ℝ) / 10)
        ∧ (((process_binary_message frame13 initialState).1.current_readings.ct2 : ℝ)
          = ((round ((10 : ℝ) * Real.sqrt (le16 frame13 2)) : ℤ) : ℝ) / 10))
      ∧ decodeCurrent 900 = 30 ∧ decodeCurrent 625 = 25 ∧ decodeCurrent 0 = 0 :=
  readings_current_round_sqrt frame13 initialState (by decide)

/-- Claim C2: for every readings frame of at least 13 bytes and every load
channel `i`, the decoded load state follows the status byte at position
`10 + i` — 0 is Off, 1 is On, 2 is WaitOff with remaining time
`max 0 (turn_off_delay i - counter i)`, 3 is WaitOn with remaining time
`max 0 (turn_on_delay i · 60 - counter i)`, and any other value is Off with
no remaining time — where `counter i` is the little-endian uint16 at bytes
`4+2i..5+2i` and the delays come from the currently stored settings. -/
theorem readings_load_state (data : List ℕ) (st : ClientState)
    (h : 13 ≤ data.length) (i : Fin 3) :
    (data.getD (10 + i.val) 0 = 0 →
        (process_binary_message data st).1.load_status i
          = { status := LoadStatus.off, remaining_time := none })
      ∧ (data.getD (10 + i.val) 0 = 1 →
        (process_binary_message data st).1.load_status i
          = { status := LoadStatus.on, remaining_time := none })
      ∧ (data.getD (10 + i.val) 0 = 2 →
        (process_binary_message data st).1.load_status i
          = { status := LoadStatus.waitOff,
              remaining_time :=
                some (max 0 (((st.settings.loads i).turn_off_delay : ℤ)
                  - le16 data (4 + 2 * i.val))) })
      ∧ (data.getD (10 + i.val) 0 = 3 →
        (process_binary_message data st).1.load_status i
          = { status := LoadStatus.waitOn,
              remaining_time :=
                some (max 0 (((st.settings.loads i).turn_on_delay : ℤ) * 60
                  - le16 data (4 + 2 * i.val))) })
      ∧ (data.getD (10 + i.val) 0 ≠ 0 → data.getD (10 + i.val) 0 ≠ 1 →
          data.getD (10 + i.val) 0 ≠ 2 → data.getD (10 + i.val) 0 ≠ 3 →
        (process_binary_message data st).1.load_status i
          = { status := LoadStatus.off, remaining_time := none }) := by
  have h12 : data.length ≠ 12 := by omega
  have h13 : ¬ data.length < 13 := by omega
  have hls : (process_binary_message data st).1.load_status i = loadStateOf data st.settings i := by
    simp [process_binary_message, process_readings_message, h12, h13,
      extended_readings_update]
  refine ⟨?_, ?_, ?_, ?_, ?_⟩
  · intro hb
    rw [hls]
    unfold loadStateOf
    rw [hb]
    norm_num
  · intro hb
    rw [hls]
    unfold loadStateOf
    rw [hb]
    norm_num
  · intro hb
    rw [hls]
    unfold loadStateOf
    rw [hb]
    norm_num
  · intro hb
    rw [hls]
    unfold loadStateOf
    rw [hb]
    norm_num
  · intro h0 h1 h2 h3
    rw [hls]
    unfold loadStateOf
    rw [if_neg h0, if_neg h1, if_neg h2, if_neg h3]

/-- Witness for C2 at the concrete frame `frame13s` (status byte 2, counter
5, default turn-off delay 10 gives remaining time 5; status byte 3, counter
0, default turn-on delay 8 minutes gives 480; unknown status byte 7 gives
Off). -/
theorem readings_load_state_witness :
    (process_binary_message frame13s initialState).1.load_status 0
        = { status := LoadStatus.waitOff, remaining_time := some 5 }
      ∧ (process_binary_message frame13s initialState).1.load_status 1
        = { status := LoadStatus.waitOn, remaining_time := some 480 }
      ∧ (process_binary_message frame13s initialState).1.load_status 2
        = { status := LoadStatus.off, remaining_time := none } := by
  have h0 := (readings_load_state frame13s initialState (by decide) 0).2.2.1 (by decide)
  have h1 := (readings_load_state frame13s initialState (by decide) 1).2.2.2.1 (by decide)
  have h2 := (readings_load_state frame13s initialState (by decide) 2).2.2.2.2
    (by decide) (by decide) (by decide) (by decide)
  refine ⟨?_, ?_, h2⟩
  · rw [h0]
    simp [initialState, default_loads, frame13s, le16]
  · rw [h1]
    simp [initialState, default_loads, frame13s, le16]

/-- Claim C3: every 12-byte frame is decoded as a settings frame whose
main breaker is byte 0, whose three load configurations take their breaker,
turn-on delay and turn-off delay from the raw bytes at positions 1-3, 4-6
and 7-9 (scale factor 1), whose active channel count is byte 10, whose CT
index is byte 11, and whose derived CT rating is `100 * (ct_index + 1)`. -/
theorem settings_frame_decode (data : List ℕ) (st : ClientState) (h : data.length = 12) :
    (process_binary_message data st).1.settings.main_supply_breaker = data.getD 0 0
      ∧ ((process_binary_message data st).1.settings.loads 0).load_breaker = data.getD 1 0
      ∧ ((process_binary_message data st).1.settings.loads 0).turn_on_delay = data.getD 2 0
      ∧ ((process_binary_message data st).1.settings.loads 0).turn_off_delay = data.getD 3 0
      ∧ ((process_binary_message data st).1.settings.loads 1).load_breaker = data.getD 4 0
      ∧ ((process_binary_message data st).1.settings.loads 1).turn_on_delay = data.getD 5 0
      ∧ ((process_binary_message data st).1.settings.loads 1).turn_off_delay = data.getD 6 0
      ∧ ((process_binary_message data st).1.settings.loads 2).load_breaker = data.getD 7 0
      ∧ ((process_binary_message data st).1.settings.loads 2).turn_on_delay = data.getD 8 0
      ∧ ((process_binary_message data st).1.settings.loads 2).turn_off_delay = data.getD 9 0
      ∧ (process_binary_message data st).1.settings.active_ch = data.getD 10 0
      ∧ (process_binary_message data st).1.settings.ct_index = data.getD 11 0
      ∧ (process_binary_message data st).1.settings.ct_rating
          = 100 * ((process_binary_message data st).1.settings.ct_index + 1) := by
  have hs : (process_binary_message data st).1 = process_settings_message data st := by
    simp [process_binary_message, h]
  rw [hs]
  simp [process_settings_message]

/-- Witness for C3 at the concrete 12-byte frame `frame12`. -/
theorem settings_frame_decode_witness :
    (process_binary_message frame12 initialState).1.settings.main_supply_breaker = 50
      ∧ ((process_binary_message frame12 initialState).1.settings.loads 1).turn_on_delay = 6
      ∧ (process_binary_message frame12 initialState).1.settings.ct_index = 1
      ∧ (process_binary_message frame12 initialState).1.settings.ct_rating = 200 := by
  have h := settings_frame_decode frame12 initialState rfl
  refine ⟨?_, ?_, ?_, ?_⟩
  · rw [h.1]
    decide
  · rw [h.2.2.2.2.2.1]
    decide
  · rw [h.2.2.2.2.2.2.2.2.2.2.2.1]
    decide
  · rw [h.2.2.2.2.2.2.2.2.2.2.2.2, h.2.2.2.2.2.2.2.2.2.2.2.1]
    decide

/-- The stored previous power of the integrator, when present, is
non-negative. -/
def nonnegLastPower (st : EnergyState) : Prop :=
  ∀ p, st.last_power_value = some p → 0 ≤ p

/-- One integrator evaluation with a non-negative sample never decreases
the total and preserves non-negativity of the stored power. -/
lemma native_value_mono (st : EnergyState) (t : ℚ) (power : Option ℚ)
    (h1 : nonnegLastPower st) (h2 : ∀ p, power = some p → 0 ≤ p) :
    st.energy_total ≤ (native_value st t power).energy_total
      ∧ nonnegLastPower (native_value st t power) := by
  obtain ⟨lt, lp, tot⟩ := st
  cases power with
  | none => exact ⟨le_refl _, h1⟩
  | some p =>
    have hp : 0 ≤ p := h2 p rfl
    have hkeep : nonnegLastPower (native_value ⟨lt, lp, tot⟩ t (some p)) := by
      intro q hq
      cases lt <;> cases lp <;>
        · simp only [native_value] at hq
          cases hq
          exact hp
    refine ⟨?_, hkeep⟩
    cases lt with
    | none =>
      cases lp <;> simp [native_value]
    | some t0 =>
      cases lp with
      | none => simp [native_value]
      | some p0 =>
        have hp0 : 0 ≤ p0 := h1 p0 rfl
        by_cases hlt : t0 < t
        · have hdt : 0 ≤ t - t0 := by linarith
          have hinc : 0 ≤ ((p0 + p) / 2 * ((t - t0) / 3600)) / 1000 := by positivity
          simp only [native_value, if_pos hlt]
          linarith
        · simp [native_value, hlt]

/-- Running the integrator over a list of non-negative samples never
decreases the total. -/
lemma energy_run_mono (samples : List (ℚ × Option ℚ)) (st : EnergyState)
    (h1 : nonnegLastPower st)
    (h2 : ∀ s ∈ samples, ∀ p, s.2 = some p → 0 ≤ p) :
    st.energy_total ≤ (energy_run st samples).energy_total := by
  induction samples generalizing st with
  | nil => exact le_refl _
  | cons s rest ih =>
    have hstep := native_value_mono st s.1 s.2 h1 (h2 s (List.mem_cons_self s rest))
    have hrest := ih (native_value st s.1 s.2) hstep.2
      (fun x hx => h2 x (List.mem_cons_of_mem s hx))
    calc st.energy_total ≤ (native_value st s.1 s.2).energy_total := hstep.1
      _ ≤ (energy_run (native_value st s.1 s.2) rest).energy_total := hrest

/-- Claim C5: with a stored previous sample (t0, P0) and a current sample
(t1, P1) with t1 strictly later, one integrator evaluation adds exactly
`(P0 + P1) / 2 * (t1 - t0) / 3600 / 1000` kWh and stores (t1, P1); on the
very first sample nothing is added but the pair is stored; and starting
from total 0, the samples (0, 1000 W) and (3600, 1000 W) give 1.0 kWh. -/
theorem energy_trapezoid :
    (∀ (st : EnergyState) (t0 p0 t1 p1 : ℚ),
        st.last_update_time = some t0 → st.last_power_value = some p0 → t0 < t1 →
        native_value st t1 (some p1)
          = { last_update_time := some t1, last_power_value := some p1,
              energy_total := st.energy_total + ((p0 + p1) / 2 * ((t1 - t0) / 3600)) / 1000 })
      ∧ (∀ (st : EnergyState) (t p : ℚ),
        st.last_update_time = none →
        native_value st t (some p)
          = { last_update_time := some t, last_power_value := some p,
              energy_total := st.energy_total })
      ∧ (native_value (native_value initialEnergyState 0 (some 1000)) 3600
          (some 1000)).energy_total = 1 := by
  refine ⟨?_, ?_, ?_⟩
  · intro st t0 p0 t1 p1 h1 h2 h3
    obtain ⟨lt, lp, tot⟩ := st
    have h1' : lt = some t0 := h1
    have h2' : lp = some p0 := h2
    subst h1' h2'
    simp [native_value, h3]
  · intro st t p h1
    obtain ⟨lt, lp, tot⟩ := st
    have h1' : lt = none := h1
    subst h1'
    cases lp <;> simp [native_value]
  · norm_num [native_value, initialEnergyState]

/-- Witness for C5: the trapezoidal step at the concrete stored sample
(0, 1000) and current sample (3600, 1000). -/
theorem energy_trapezoid_witness :
    native_value ⟨some 0, some 1000, 0⟩ 3600 (some 1000)
      = ⟨some 3600, some 1000, (0 : ℚ) + ((1000 + 1000) / 2 * ((3600 - 0) / 3600)) / 1000⟩ :=
  energy_trapezoid.1 ⟨some 0, some 1000, 0⟩ 0 1000 3600 1000 rfl rfl (by norm_num)

/-- Claim C6: the accumulated energy total is monotonically non-decreasing —
a single evaluation with a non-negative power sample never decreases the
total and keeps the stored power non-negative, a whole run over a sequence
of non-negative samples never decreases the total, and the powers produced
by the non-negative sqrt current decode times a non-negative voltage are
indeed non-negative. -/
theorem energy_total_monotone :
    (∀ (st : EnergyState) (t : ℚ) (power : Option ℚ),
        nonnegLastPower st → (∀ p, power = some p → 0 ≤ p) →
        st.energy_total ≤ (native_value st t power).energy_total
          ∧ nonnegLastPower (native_value st t power))
      ∧ (∀ (samples : List (ℚ × Option ℚ)) (st : EnergyState),
        nonnegLastPower st → (∀ s ∈ samples, ∀ p, s.2 = some p → 0 ≤ p) →
        st.energy_total ≤ (energy_run st samples).energy_total)
      ∧ (∀ (raw : ℕ) (voltage : ℚ), 0 ≤ voltage →
        0 ≤ get_power_value (decodeCurrent raw) voltage) := by
  refine ⟨native_value_mono, energy_run_mono, ?_⟩
  intro raw voltage hv
  have hc : 0 ≤ decodeCurrent raw := by
    unfold decodeCurrent
    positivity
  exact mul_nonneg hc hv

/-- Witness for C6: a concrete run from the initial integrator state over
two non-negative samples never decreases the total. -/
theorem energy_total_monotone_witness :
    initialEnergyState.energy_total
      ≤ (energy_run initialEnergyState [(0, some 1000), (3600, some 1000)]).energy_total :=
  energy_total_monotone.2.1 [(0, some 1000), (3600, some 1000)] initialEnergyState
    (fun p hp => by cases hp)
    (fun s hs p hp => by
      simp only [List.mem_cons, List.not_mem_nil, or_false] at hs
      rcases hs with h | h <;>
        · subst h
          cases hp
          norm_num)

end VElectric
